import Mathlib

/-!
# SlimStorage — verification of the event/schema/aggregation core

The repository ships only its HTTP black-box test suites
(`scripts/test-api.py`, `scripts/test-event-api.py`,
`scripts/test-schema-api.py`); the server implementation itself is not part
of the source tree.  Every operational definition below is therefore
modelled from the specification (`spec.md`), faithful to its words, and the
test scripts are used to pin the observable contract (status codes,
response fields, counts).

Modelling conventions:
* timestamps are `Nat` seconds since the UTC epoch; hourly truncation is
  `t / 3600 * 3600`, daily truncation is `t / 86400 * 86400`;
* scalar data values are a closed variant (integer, number, string, bool);
  numeric values are embedded into `Rat` so aggregation arithmetic is exact;
* the bucket set of one granularity is a total function
  `Nat → Option Bucket` from period start to the bucket, `none` meaning the
  bucket does not exist;
* fallible handlers return the HTTP status code together with the state
  after the call, so frame conditions are plain equations.
-/

/-- Modelled from the spec: a scalar data value of a record
(`data: mapping of field name → scalar (numeric/string/boolean)`, §3). -/
inductive Value where
  | vInt  (n : Int)
  | vNum  (q : Rat)
  | vStr  (s : String)
  | vBool (b : Bool)
deriving DecidableEq, Repr

/-- Modelled from the spec: the numeric reading of a scalar value, `none`
when the value is not numeric (§4.3: "each schema-declared field present
and numeric in the record"). -/
def Value.numeric? : Value → Option Rat
  | .vInt n  => some (n : Rat)
  | .vNum q  => some q
  | .vStr _  => none
  | .vBool _ => none

/-- Modelled from the spec: the closed field-type variant
`{integer, float, double, string, boolean}` (§3, §9). -/
inductive FieldType where
  | integer | float | double | string | boolean
deriving DecidableEq, Repr

/-- Modelled from the spec: parsing of the wire field-type name; any other
string is an unrecognized type (§4.2 `create`). -/
def parseFieldType : String → Option FieldType
  | "integer" => some .integer
  | "float"   => some .float
  | "double"  => some .double
  | "string"  => some .string
  | "boolean" => some .boolean
  | _         => none

/-- A field type counts as numeric for aggregation purposes. -/
def FieldType.isNumeric : FieldType → Bool
  | .integer => true
  | .float   => true
  | .double  => true
  | .string  => false
  | .boolean => false

/-- Modelled from the spec: aggregation granularity, hourly or daily (§3). -/
inductive Gran where
  | hourly | daily
deriving DecidableEq, Repr

/-- Modelled from the spec: `period = floor(record.timestamp, G)`
(hourly: truncate to the hour; daily: truncate to the UTC calendar day),
on seconds-since-epoch timestamps (§4.3). -/
def truncTs : Gran → Nat → Nat
  | .hourly, t => t / 3600 * 3600
  | .daily,  t => t / 86400 * 86400

/-- Modelled from the spec: a stored record — identifier elided, UTC
timestamp, data payload, insertion sequence number (§3). -/
structure Record where
  seq  : Nat
  ts   : Nat
  data : List (String × Value)
deriving DecidableEq, Repr

/-- The numeric value of a named field in a record's payload, when the
field is present and numeric. -/
def Record.numField (r : Record) (name : String) : Option Rat :=
  (r.data.lookup name).bind Value.numeric?

/-- Modelled from the spec: the per-field running aggregate
`{sum, count, min, max}` of an AggregateBucket (§3); `none` for min/max
means the field has not been seen yet in this bucket. -/
structure FieldAgg where
  sum   : Rat
  count : Nat
  minv  : Option Rat
  maxv  : Option Rat
deriving DecidableEq, Repr

/-- The aggregate of no values. -/
def FieldAgg.init : FieldAgg := ⟨0, 0, none, none⟩

/-- Fold one numeric value into a field aggregate: update the running
sum/count/min/max (§4.3 `incremental_update`). -/
def FieldAgg.add (a : FieldAgg) (v : Rat) : FieldAgg :=
  { sum   := a.sum + v
    count := a.count + 1
    minv  := some (match a.minv with | none => v | some m => min m v)
    maxv  := some (match a.maxv with | none => v | some m => max m v) }

/-- Modelled from the spec: one AggregateBucket — per numeric schema field
an aggregate plus one `event_count` for the whole bucket (§3).  The `aggs`
list is parallel to the schema's numeric-field list. -/
structure Bucket where
  event_count : Nat
  aggs        : List FieldAgg
deriving DecidableEq, Repr

/-- The empty bucket for a schema with numeric fields `nf`. -/
def emptyBucket (nf : List String) : Bucket :=
  ⟨0, nf.map fun _ => FieldAgg.init⟩

/-- Fold one record into the per-field aggregates: each schema-declared
numeric field present and numeric in the record updates its slot, every
other slot is untouched (§4.3 `incremental_update`). -/
def updAggs (nf : List String) (aggs : List FieldAgg) (r : Record) :
    List FieldAgg :=
  List.zipWith
    (fun name agg =>
      match r.numField name with
      | some v => agg.add v
      | none   => agg)
    nf aggs

/-- Fold one record into a bucket: update the field aggregates and
increment `event_count` exactly once, independent of how many fields the
record touches (§4.3). -/
def updBucket (nf : List String) (b : Bucket) (r : Record) : Bucket :=
  ⟨b.event_count + 1, updAggs nf b.aggs r⟩

/-- The bucket set of one granularity: period start ↦ bucket. -/
def BucketMap : Type := Nat → Option Bucket

/-- The empty bucket set. -/
def BucketMap.empty : BucketMap := fun _ => none

/-- Modelled from the spec: `incremental_update(record)` restricted to one
granularity — fold the record into the bucket of its truncated timestamp,
creating the bucket when absent (§4.3). -/
def stepRecord (g : Gran) (nf : List String) (m : BucketMap) (r : Record) :
    BucketMap :=
  fun p =>
    if p = truncTs g r.ts then
      some (updBucket nf ((m p).getD (emptyBucket nf)) r)
    else m p

/-- The bucket set produced by pure incremental updates: every record of
the log folded, in arrival order, through `stepRecord` (§4.3). -/
def incBuckets (g : Gran) (nf : List String) (log : List Record) :
    BucketMap :=
  log.foldl (stepRecord g nf) BucketMap.empty

/-- Timestamp order on records, insertion sequence breaking ties (§3). -/
def tsLE (r s : Record) : Prop :=
  r.ts < s.ts ∨ (r.ts = s.ts ∧ r.seq ≤ s.seq)

instance : DecidableRel tsLE := fun r s => by
  unfold tsLE; infer_instance

/-- The log replayed in timestamp order (stable sort). -/
def sortLog (log : List Record) : List Record :=
  log.insertionSort tsLE

/-- Modelled from the spec: `rebuild()` for one granularity — discard
existing buckets and replay every record from the log in timestamp order
through the same `incremental_update` fold (§4.3). -/
def rebuildBuckets (g : Gran) (nf : List String) (log : List Record) :
    BucketMap :=
  (sortLog log).foldl (stepRecord g nf) BucketMap.empty

/-- The canonical fold of a list of records into one bucket. -/
def bucketFold (nf : List String) (rs : List Record) : Bucket :=
  rs.foldl (updBucket nf) (emptyBucket nf)

/-- The records of the log that fall into the bucket of period `p` for
granularity `g`: exactly those whose truncated timestamp equals `p`. -/
def bucketRecords (g : Gran) (p : Nat) (log : List Record) : List Record :=
  log.filter fun r => truncTs g r.ts == p

/-- The canonical fold of a list of numeric values into one field
aggregate. -/
def fieldFold (vs : List Rat) : FieldAgg :=
  vs.foldl FieldAgg.add FieldAgg.init

/-- Folding one value of one field, used to decompose the bucket fold. -/
def stepField (name : String) (a : FieldAgg) (r : Record) : FieldAgg :=
  match r.numField name with
  | some v => a.add v
  | none   => a

/-- Modelled from the spec: the schema definition — ordered field list with
types, plus the enabled aggregation granularities (§3). -/
structure SchemaDefinition where
  fields       : List (String × FieldType)
  aggregations : List Gran
deriving DecidableEq, Repr

/-- The names of the schema's numeric fields, in declaration order. -/
def numericFields (sd : SchemaDefinition) : List String :=
  (sd.fields.filter fun f => f.2.isNumeric).map Prod.fst

/-- Modelled from the spec: the per-process state container — the
append-only event log with its next insertion sequence, the singleton
schema, and the per-granularity bucket sets (§9 "explicit per-process
state container ... passed explicitly to every operation"). -/
structure SysState where
  events  : List Record
  nextSeq : Nat
  schema  : Option SchemaDefinition
  buckets : Gran → BucketMap

/-- The initial state: empty log, no schema, no buckets. -/
def SysState.init : SysState :=
  ⟨[], 0, none, fun _ => BucketMap.empty⟩

/-- Modelled from the spec: the removal summary of `DELETE /schema` —
which fields and aggregations were torn down (§4.2 `delete`). -/
structure RemovedSummary where
  fields       : Nat
  aggregations : List Gran
deriving DecidableEq, Repr

/-- Modelled from the spec: `delete()` — removes the definition and all
dependent aggregate state, never the raw log; 404 if no schema existed,
200 with a removal summary otherwise (§4.2, §9 canonical choice). -/
def deleteSchema (s : SysState) : Nat × Option RemovedSummary × SysState :=
  match s.schema with
  | none => (404, none, s)
  | some sd =>
      (200, some ⟨sd.fields.length, sd.aggregations⟩,
        { s with schema := none, buckets := fun _ => BucketMap.empty })

/-- Modelled from the spec: `create(definition)` — 400 if fields is empty
or any field type is unrecognized, 409 if a schema already exists,
otherwise 201: store the definition and initialize empty AggregateBuckets
for every requested granularity (§4.2). -/
def createSchema (s : SysState) (fs : List (String × String))
    (aggs : List Gran) : Nat × Option SchemaDefinition × SysState :=
  if fs.isEmpty || fs.any (fun f => (parseFieldType f.2).isNone) then
    (400, none, s)
  else
    match s.schema with
    | some _ => (409, none, s)
    | none =>
        let sd : SchemaDefinition :=
          ⟨fs.filterMap fun f => (parseFieldType f.2).map (f.1, ·), aggs⟩
        (201, some sd,
          { s with schema := some sd, buckets := fun _ => BucketMap.empty })

/-- Modelled from the spec: the timestamp field of a push entry — absent
(server assigns), a parsed UTC instant, or unparseable (§4.1, §6). -/
inductive TsField where
  | absent
  | given (t : Nat)
  | bad
deriving DecidableEq, Repr

/-- Modelled from the spec: one entry of a push request: an optional data
payload and a timestamp field (§6 `POST /event/push`). -/
structure PushEntry where
  pdata : Option (List (String × Value))
  pts   : TsField
deriving DecidableEq, Repr

/-- Modelled from the spec: a push body is a single `{data:...}` object or
a batch `{events:[...]}` (§6). -/
inductive PushBody where
  | single (e : PushEntry)
  | batch  (es : List PushEntry)
deriving DecidableEq, Repr

/-- The records a push body carries: a single body carries one. -/
def PushBody.entries : PushBody → List PushEntry
  | .single e => [e]
  | .batch es => es

/-- An entry is valid when it has a data payload and its timestamp, if
present, parsed (§4.1: ValidationError if a record lacks its data payload
or carries an unparseable timestamp). -/
def entryValid (e : PushEntry) : Bool :=
  e.pdata.isSome && decide (e.pts ≠ TsField.bad)

/-- The timestamp stored for an entry: the caller's when given, the server
time when absent (§3). -/
def entryTs (now : Nat) (e : PushEntry) : Nat :=
  match e.pts with
  | .given t => t
  | _        => now

/-- Append one validated entry: assign the insertion sequence, store the
record, and fold it into the bucket of every enabled granularity
(§2 Flow: push → append → AggregationEngine updates matching buckets). -/
def appendEntry (now : Nat) (s : SysState) (e : PushEntry) : SysState :=
  let r : Record := ⟨s.nextSeq, entryTs now e, e.pdata.getD []⟩
  { s with
    events  := s.events ++ [r]
    nextSeq := s.nextSeq + 1
    buckets := fun g =>
      match s.schema with
      | some sd =>
          if g ∈ sd.aggregations then
            stepRecord g (numericFields sd) (s.buckets g) r
          else s.buckets g
      | none => s.buckets g }

/-- Modelled from the spec: the push response `{status, count}` (§6). -/
structure PushResp where
  status : String
  count  : Nat
deriving DecidableEq, Repr

/-- Modelled from the spec: `POST /event/push` — validate every entry
first (all validation completes before any mutation, §7), then append all
of them; 200 `{status:"success", count:N}`, or 400 leaving the state
untouched (§6, §4.1). -/
def pushEvents (now : Nat) (s : SysState) (body : PushBody) :
    Nat × Option PushResp × SysState :=
  let es := body.entries
  if es.all entryValid then
    (200, some ⟨"success", es.length⟩, es.foldl (appendEntry now) s)
  else
    (400, none, s)

/-- Modelled from the spec: the canonical order enum of the QueryEngine. -/
inductive Order where
  | asc | desc
deriving DecidableEq, Repr

/-- The canonical uppercase echo of an order (§4.4: "echoed back
canonically uppercase"). -/
def orderStr : Order → String
  | .asc  => "ASC"
  | .desc => "DESC"

/-- Modelled from the spec: order normalization — default "desc",
case-insensitively mapped to asc/desc (§4.4). -/
def normOrder : Option String → Order
  | none   => .desc
  | some s => if s.toLower = "asc" then .asc else .desc

/-- Modelled from the spec: the shared query parameters of
`POST /event/query` (§6). -/
structure QueryParams where
  start_date : Option Nat
  end_date   : Option Nat
  limit      : Option Int
  offset     : Option Int
  order      : Option String
deriving DecidableEq, Repr

/-- Modelled from the spec: the query response
`{events, total, count, limit, offset, order}` (§6). -/
structure QueryResp where
  events : List Record
  total  : Nat
  count  : Nat
  limit  : Int
  offset : Int
  order  : String
deriving DecidableEq, Repr

/-- A record matches the optional date range. -/
def inRange (startD endD : Option Nat) (r : Record) : Bool :=
  (match startD with | some t => t ≤ r.ts | none => true)
    && (match endD with | some t => r.ts ≤ t | none => true)

/-- Modelled from the spec: `POST /event/query` — normalize the shared
parameters (limit default 100, offset default 0, order default desc), fail
400 on limit > 10000 or offset < 0, otherwise return the paginated slice
of the timestamp-ordered view (ties broken by insertion sequence), the
total unfiltered count, and the echoed parameters (§4.1, §4.4, §6). -/
def queryEvents (s : SysState) (q : QueryParams) :
    Nat × Option QueryResp × SysState :=
  let lim := q.limit.getD 100
  let off := q.offset.getD 0
  if lim > 10000 then (400, none, s)
  else if off < 0 then (400, none, s)
  else
    let ord := normOrder q.order
    let view :=
      match ord with
      | .asc  => (sortLog s.events).filter (inRange q.start_date q.end_date)
      | .desc =>
          ((sortLog s.events).filter (inRange q.start_date q.end_date)).reverse
    let slice := (view.drop off.toNat).take lim.toNat
    (200, some ⟨slice, s.events.length, slice.length, lim, off, orderStr ord⟩,
      s)

/-- Modelled from the spec: granularity parsing — any value other than
"hourly"/"daily" is invalid (§4.3 `query`). -/
def parseGran (g : String) : Option Gran :=
  if g = "hourly" then some .hourly
  else if g = "daily" then some .daily
  else none

/-- Modelled from the spec: the aggregate response
`{granularity, data, fields}` (§6). -/
structure AggResp where
  granularity : Gran
  data        : List (Nat × Bucket)
  fields      : List String
deriving Repr

/-- The period-ascending list of existing buckets of one granularity,
restricted to the optional date range. -/
def listBuckets (s : SysState) (g : Gran) (startD endD : Option Nat) :
    List (Nat × Bucket) :=
  let periods :=
    (((s.events.map fun r => truncTs g r.ts).dedup).mergeSort (· ≤ ·)).filter
      fun p => (match startD with | some t => t ≤ p | none => true)
        && (match endD with | some t => p ≤ t | none => true)
  periods.filterMap fun p => (s.buckets g p).map ((p, ·))

/-- Modelled from the spec: `POST /event/aggregate` — 400 for any
granularity other than "hourly"/"daily"; 404 if no schema exists or the
granularity's aggregation is not enabled; otherwise 200 with the
period-ascending bucket summaries (§4.3 `query`, §6). -/
def aggregateQuery (s : SysState) (granStr : String)
    (startD endD : Option Nat) : Nat × Option AggResp × SysState :=
  match parseGran granStr with
  | none => (400, none, s)
  | some g =>
      match s.schema with
      | none => (404, none, s)
      | some sd =>
          if g ∈ sd.aggregations then
            (200, some ⟨g, listBuckets s g startD endD, numericFields sd⟩, s)
          else (404, none, s)

/-- One replay step over all enabled granularities. -/
def stepAll (sd : SchemaDefinition) (bs : Gran → BucketMap) (r : Record) :
    Gran → BucketMap :=
  fun g =>
    if g ∈ sd.aggregations then
      stepRecord g (numericFields sd) (bs g) r
    else bs g

/-- Sequential fallible replay of a record list: any fault aborts the
whole replay, otherwise every record is folded through the shared
incremental fold. -/
def replayList (fail : Record → Bool) (sd : SchemaDefinition) :
    List Record → (Gran → BucketMap) → Except Unit (Gran → BucketMap)
  | [], bs => Except.ok bs
  | r :: rest, bs =>
      if fail r then Except.error ()
      else replayList fail sd rest (stepAll sd bs r)

/-- Modelled from the spec: the fallible replay of `rebuild()` — replay
the log in timestamp order, building the replacement bucket set on the
side; `fail` is the fault oracle (storage/record faults during replay),
and any fault aborts the whole replay (§4.3, §7). -/
def replayE (fail : Record → Bool) (sd : SchemaDefinition)
    (log : List Record) : Except Unit (Gran → BucketMap) :=
  replayList fail sd (sortLog log) (fun _ => BucketMap.empty)

/-- Modelled from the spec: `POST /schema/rebuild` — compute the full
replacement bucket set by replaying the log, and atomically swap it in
only once the full replay completes; a failing rebuild leaves the prior
aggregate state intact (§4.3 `rebuild`, §7). -/
def rebuildOp (fail : Record → Bool) (s : SysState) : Nat × SysState :=
  match s.schema with
  | none => (404, s)
  | some sd =>
      match replayE fail sd s.events with
      | .ok bs   => (200, { s with buckets := bs })
      | .error _ => (500, s)

/-- A hexadecimal digit. -/
def isHexDigit (c : Char) : Bool :=
  c.isDigit || ('a' ≤ c && c ≤ 'f') || ('A' ≤ c && c ≤ 'F')

/-- Modelled from the spec: a well-formed key of the key-value subsystem —
a server-generated UUID-format identifier (§6: "Keys are server-generated
UUID-format identifiers; malformed key → 400"). -/
def isUuid (k : String) : Bool :=
  k.length = 36 &&
    k.toList.enum.all fun ic =>
      if ic.1 = 8 || ic.1 = 13 || ic.1 = 18 || ic.1 = 23 then ic.2 = '-'
      else isHexDigit ic.2

/-- The key-value store: opaque key ↦ opaque value (§3 KVEntry). -/
def KVStore : Type := List (String × String)

/-- Modelled from the spec: `POST /get {key}` — 400 on a malformed key,
404 on an unknown key, 200 with the value otherwise (§6). -/
def kvGet (st : KVStore) (k : String) : Nat × Option String × KVStore :=
  if isUuid k then
    match st.lookup k with
    | some v => (200, some v, st)
    | none   => (404, none, st)
  else (400, none, st)

/-- Modelled from the spec: `POST /exists {key}` — 400 on a malformed key;
otherwise 200, reporting in the body whether the key is present (the test
contract expects 200 even for an absent key, test-api.py test 15). -/
def kvExists (st : KVStore) (k : String) : Nat × Option Bool × KVStore :=
  if isUuid k then (200, some (st.lookup k).isSome, st)
  else (400, none, st)

/-- Modelled from the spec: `POST /delete {key}` — 400 on a malformed key,
404 on an unknown key, 200 removing the entry otherwise (§6). -/
def kvDelete (st : KVStore) (k : String) : Nat × KVStore :=
  if isUuid k then
    match st.lookup k with
    | some _ => (200, st.eraseP fun e => e.1 == k)
    | none   => (404, st)
  else (400, st)

theorem fieldAgg_add_comm (a : FieldAgg) (v w : Rat) :
    (a.add v).add w = (a.add w).add v := by
  obtain ⟨s, c, mi, ma⟩ := a
  simp only [FieldAgg.add, FieldAgg.mk.injEq]
  refine ⟨by ring, trivial, ?_, ?_⟩ <;>
    cases mi <;> cases ma <;>
      simp [min_comm, max_comm, min_assoc, max_assoc, min_left_comm,
        max_left_comm]

theorem updAggs_comm (nf : List String) (aggs : List FieldAgg)
    (r s : Record) :
    updAggs nf (updAggs nf aggs r) s = updAggs nf (updAggs nf aggs s) r := by
  induction nf generalizing aggs with
  | nil => simp [updAggs]
  | cons name rest ih =>
    cases aggs with
    | nil => simp [updAggs]
    | cons a as =>
      simp only [updAggs, List.zipWith] at ih ⊢
      refine congrArg₂ (· :: ·) ?_ (ih as)
      cases r.numField name <;> cases s.numField name <;>
        simp [fieldAgg_add_comm]

theorem updBucket_comm (nf : List String) (b : Bucket) (r s : Record) :
    updBucket nf (updBucket nf b r) s = updBucket nf (updBucket nf b s) r := by
  simp [updBucket, updAggs_comm, Nat.add_comm]

theorem stepRecord_comm (g : Gran) (nf : List String) (m : BucketMap)
    (r s : Record) :
    stepRecord g nf (stepRecord g nf m r) s
      = stepRecord g nf (stepRecord g nf m s) r := by
  funext p
  by_cases hr : p = truncTs g r.ts
  · subst hr
    by_cases hs : truncTs g r.ts = truncTs g s.ts
    · simp [stepRecord, hs, updBucket_comm]
    · simp [stepRecord, hs]
  · by_cases hs : p = truncTs g s.ts
    · subst hs
      simp [stepRecord, hr]
    · simp [stepRecord, hr, hs]

theorem incBuckets_snoc (g : Gran) (nf : List String) (log : List Record)
    (r : Record) :
    incBuckets g nf (log ++ [r]) = stepRecord g nf (incBuckets g nf log) r := by
  simp [incBuckets, List.foldl_append]

theorem foldl_updBucket_event_count (nf : List String) (rs : List Record) :
    ∀ b : Bucket, (rs.foldl (updBucket nf) b).event_count
      = b.event_count + rs.length := by
  induction rs with
  | nil => simp
  | cons r rest ih =>
    intro b
    simp only [List.foldl_cons, ih, updBucket, List.length_cons]
    omega

theorem foldl_updBucket_aggs (nf : List String) (rs : List Record) :
    ∀ b : Bucket, (rs.foldl (updBucket nf) b).aggs
      = rs.foldl (updAggs nf) b.aggs := by
  induction rs with
  | nil => simp
  | cons r rest ih => intro b; simp only [List.foldl_cons, ih, updBucket]

theorem updAggs_map (nf : List String) (f : String → FieldAgg) (r : Record) :
    updAggs nf (nf.map f) r = nf.map fun name => stepField name (f name) r := by
  induction nf with
  | nil => rfl
  | cons name rest ih =>
    simp only [updAggs, List.map_cons, List.zipWith] at ih ⊢
    refine congrArg₂ (· :: ·) ?_ ih
    simp [stepField]

theorem foldl_updAggs_map (nf : List String) (rs : List Record) :
    ∀ f : String → FieldAgg,
      rs.foldl (updAggs nf) (nf.map f)
        = nf.map fun name => rs.foldl (stepField name) (f name) := by
  induction rs with
  | nil => simp
  | cons r rest ih =>
    intro f
    simp only [List.foldl_cons, updAggs_map]
    exact ih fun name => stepField name (f name) r

theorem foldl_stepField_filterMap (name : String) (rs : List Record) :
    ∀ a : FieldAgg, rs.foldl (stepField name) a
      = (rs.filterMap (Record.numField · name)).foldl FieldAgg.add a := by
  induction rs with
  | nil => simp
  | cons r rest ih =>
    intro a
    rcases h : r.numField name with _ | v <;>
      simp [stepField, List.filterMap_cons, h, ih]

theorem bucketRecords_snoc (g : Gran) (p : Nat) (log : List Record)
    (r : Record) :
    bucketRecords g p (log ++ [r])
      = bucketRecords g p log ++ if truncTs g r.ts = p then [r] else [] := by
  by_cases h : truncTs g r.ts = p <;>
    simp [bucketRecords, List.filter_append, h]

theorem incBuckets_eq_bucketFold (g : Gran) (nf : List String)
    (log : List Record) (p : Nat) :
    incBuckets g nf log p =
      if bucketRecords g p log = [] then none
      else some (bucketFold nf (bucketRecords g p log)) := by
  induction log using List.reverseRecOn with
  | nil => simp [incBuckets, bucketRecords, BucketMap.empty]
  | append_singleton l r ih =>
    rw [incBuckets_snoc, bucketRecords_snoc]
    by_cases h : truncTs g r.ts = p
    · subst h
      simp only [if_pos rfl, stepRecord, if_pos rfl, ih]
      by_cases he : bucketRecords g (truncTs g r.ts) l = []
      · simp [he, bucketFold]
      · simp [he, bucketFold, List.foldl_append]
    · simp only [if_neg h, List.append_nil, stepRecord]
      rw [if_neg (fun hp => h hp.symm), ih]

/-- C1: for every log of stored records and every granularity, `rebuild()`
(discard buckets, replay every record in timestamp order through the same
`incremental_update` fold) produces a bucket set identical, field for
field, to the bucket set produced by pure incremental updates on each
append for that same log. -/
theorem rebuild_eq_incremental (g : Gran) (nf : List String)
    (log : List Record) :
    rebuildBuckets g nf log = incBuckets g nf log := by
  unfold rebuildBuckets incBuckets sortLog
  exact (List.perm_insertionSort tsLE log).foldl_eq'
    (fun r _ s _ m => stepRecord_comm g nf m r s) BucketMap.empty

/-- C2: every bucket keyed by (granularity, period) equals the
deterministic fold of exactly the stored records whose truncated timestamp
equals that period; its `event_count` equals the number of such records
(incremented once per record regardless of how many fields the record
carries); per numeric schema field it holds the sum/count/min/max fold of
that field's numeric values over those same records; and while a schema
with this granularity enabled exists, each append advances the maintained
bucket set by exactly this fold, so the invariant holds of the maintained
state. -/
theorem bucket_fold_invariant (g : Gran) (nf : List String)
    (log : List Record) (p : Nat) :
    (incBuckets g nf log p =
        if bucketRecords g p log = [] then none
        else some (bucketFold nf (bucketRecords g p log)))
    ∧ (bucketFold nf (bucketRecords g p log)).event_count
        = (bucketRecords g p log).length
    ∧ ((bucketFold nf (bucketRecords g p log)).aggs
        = nf.map fun name =>
            fieldFold ((bucketRecords g p log).filterMap
              (Record.numField · name)))
    ∧ (∀ (now : Nat) (s : SysState) (sd : SchemaDefinition) (e : PushEntry),
        s.schema = some sd → g ∈ sd.aggregations →
        (appendEntry now s e).buckets g
          = stepRecord g (numericFields sd) (s.buckets g)
              ⟨s.nextSeq, entryTs now e, e.pdata.getD []⟩) := by
  refine ⟨incBuckets_eq_bucketFold g nf log p, ?_, ?_,
    fun now s sd e hs hg => ?_⟩
  · rw [bucketFold, foldl_updBucket_event_count]
    simp [emptyBucket]
  · rw [bucketFold, foldl_updBucket_aggs]
    have h1 : (emptyBucket nf).aggs = nf.map fun _ => FieldAgg.init := rfl
    rw [h1, foldl_updAggs_map]
    refine List.map_congr_left fun name _ => ?_
    rw [foldl_stepField_filterMap, fieldFold]
  · simp [appendEntry, hs, hg]

theorem replayList_ok (fail : Record → Bool) (sd : SchemaDefinition) :
    ∀ (l : List Record) (bs out : Gran → BucketMap),
      replayList fail sd l bs = Except.ok out → out = l.foldl (stepAll sd) bs := by
  intro l
  induction l with
  | nil =>
    intro bs out h
    simp only [replayList] at h
    cases h
    rfl
  | cons r rest ih =>
    intro bs out h
    simp only [replayList] at h
    by_cases hf : fail r
    · simp [hf] at h
    · rw [if_neg hf] at h
      simpa using ih _ out h

theorem foldl_stepAll_apply (sd : SchemaDefinition) :
    ∀ (l : List Record) (bs : Gran → BucketMap) (g : Gran),
      (l.foldl (stepAll sd) bs) g
        = if g ∈ sd.aggregations then
            l.foldl (stepRecord g (numericFields sd)) (bs g)
          else bs g := by
  intro l
  induction l with
  | nil => intro bs g; by_cases h : g ∈ sd.aggregations <;> simp [h]
  | cons r rest ih =>
    intro bs g
    by_cases h : g ∈ sd.aggregations <;>
      simp [List.foldl_cons, ih, stepAll, h]

/-- C3: a rebuild that fails before its full replay completes leaves the
aggregate state observable afterwards exactly as it was before; the
observable bucket set is always either the prior one or the complete
replay of the whole log — never a partial replay. -/
theorem rebuild_failure_atomic (fail : Record → Bool) (s : SysState) :
    (∀ sd, s.schema = some sd → replayE fail sd s.events = Except.error () →
        rebuildOp fail s = (500, s))
    ∧ ((rebuildOp fail s).2.buckets = s.buckets
        ∨ ∃ sd bs, s.schema = some sd
            ∧ replayE fail sd s.events = Except.ok bs
            ∧ (rebuildOp fail s).2.buckets = bs
            ∧ ∀ g, g ∈ sd.aggregations →
                bs g = rebuildBuckets g (numericFields sd) s.events) := by
  constructor
  · intro sd hs herr
    simp [rebuildOp, hs, herr]
  · cases hs : s.schema with
    | none => left; simp [rebuildOp, hs]
    | some sd =>
      cases hr : replayE fail sd s.events with
      | error e => left; simp [rebuildOp, hs, hr]
      | ok bs =>
        right
        refine ⟨sd, bs, rfl, hr, by simp [rebuildOp, hs, hr], fun g hg => ?_⟩
        have hfold := replayList_ok fail sd (sortLog s.events) _ bs hr
        rw [hfold, foldl_stepAll_apply sd (sortLog s.events) _ g, if_pos hg]
        rfl

/-- C3 witness: with a fault oracle that fails on every record and a state
holding a schema and one stored record, the rebuild reports 500 and the
state afterwards is exactly the state before. -/
theorem rebuild_failure_atomic_witness :
    rebuildOp (fun _ => true)
        ⟨[⟨0, 0, []⟩], 1, some ⟨[("cpm", FieldType.integer)], [Gran.hourly]⟩,
          fun _ => BucketMap.empty⟩
      = (500,
          ⟨[⟨0, 0, []⟩], 1, some ⟨[("cpm", FieldType.integer)], [Gran.hourly]⟩,
            fun _ => BucketMap.empty⟩) :=
  (rebuild_failure_atomic (fun _ => true) _).1
    ⟨[("cpm", FieldType.integer)], [Gran.hourly]⟩ rfl rfl

/-- C4: deleting the schema removes the schema definition and all
AggregateBuckets for every granularity, but leaves every stored record —
and the EventStore total — unchanged. -/
theorem delete_schema_frame (s : SysState) (sd : SchemaDefinition)
    (hs : s.schema = some sd) :
    (deleteSchema s).2.2.events = s.events
    ∧ (deleteSchema s).2.2.events.length = s.events.length
    ∧ (deleteSchema s).2.2.schema = none
    ∧ (∀ g p, (deleteSchema s).2.2.buckets g p = none) := by
  simp [deleteSchema, hs, BucketMap.empty]

/-- C4 witness: deleting the schema of a concrete state with one stored
record keeps the log intact and clears schema and buckets. -/
theorem delete_schema_frame_witness :
    (deleteSchema
        ⟨[⟨0, 7200, [("cpm", Value.vInt 30)]⟩], 1,
          some ⟨[("cpm", FieldType.integer)], [Gran.hourly]⟩,
          fun _ => BucketMap.empty⟩).2.2.events
      = [⟨0, 7200, [("cpm", Value.vInt 30)]⟩]
    ∧ (deleteSchema
        ⟨[⟨0, 7200, [("cpm", Value.vInt 30)]⟩], 1,
          some ⟨[("cpm", FieldType.integer)], [Gran.hourly]⟩,
          fun _ => BucketMap.empty⟩).2.2.events.length = 1
    ∧ (deleteSchema
        ⟨[⟨0, 7200, [("cpm", Value.vInt 30)]⟩], 1,
          some ⟨[("cpm", FieldType.integer)], [Gran.hourly]⟩,
          fun _ => BucketMap.empty⟩).2.2.schema = none
    ∧ (∀ g p, (deleteSchema
        ⟨[⟨0, 7200, [("cpm", Value.vInt 30)]⟩], 1,
          some ⟨[("cpm", FieldType.integer)], [Gran.hourly]⟩,
          fun _ => BucketMap.empty⟩).2.2.buckets g p = none) :=
  delete_schema_frame _ ⟨[("cpm", FieldType.integer)], [Gran.hourly]⟩ rfl

theorem foldl_appendEntry_events_length (now : Nat) :
    ∀ (es : List PushEntry) (s : SysState),
      ((es.foldl (appendEntry now) s).events).length
        = s.events.length + es.length := by
  intro es
  induction es with
  | nil => intro s; simp
  | cons e rest ih =>
    intro s
    have hstep : (appendEntry now s e).events
        = s.events ++ [⟨s.nextSeq, entryTs now e, e.pdata.getD []⟩] := rfl
    simp only [List.foldl_cons, ih, hstep, List.length_append,
      List.length_cons, List.length_nil]
    omega

/-- C5: every valid push of N records (a single body carries one, a batch
body carries its list) returns 200 with status "success" and count N, and
grows the EventStore total by exactly N. -/
theorem push_valid_count (now : Nat) (s : SysState) (body : PushBody)
    (h : body.entries.all entryValid = true) :
    (pushEvents now s body).1 = 200
    ∧ (pushEvents now s body).2.1 = some ⟨"success", body.entries.length⟩
    ∧ ((pushEvents now s body).2.2).events.length
        = s.events.length + body.entries.length
    ∧ (∀ e : PushEntry, (PushBody.single e).entries.length = 1) := by
  refine ⟨?_, ?_, ?_, fun e => rfl⟩ <;>
    simp [pushEvents, h, foldl_appendEntry_events_length]

/-- C5 witness: pushing one valid single-body record into the empty state
returns 200 `{status:"success", count:1}` and grows the total from 0
to 1. -/
theorem push_valid_count_witness :
    (pushEvents 0 SysState.init
        (PushBody.single ⟨some [("cpm", Value.vInt 30)], TsField.absent⟩)).1
      = 200
    ∧ (pushEvents 0 SysState.init
        (PushBody.single ⟨some [("cpm", Value.vInt 30)], TsField.absent⟩)).2.1
      = some ⟨"success", 1⟩
    ∧ ((pushEvents 0 SysState.init
        (PushBody.single ⟨some [("cpm", Value.vInt 30)],
          TsField.absent⟩)).2.2).events.length = 0 + 1
    ∧ (∀ e : PushEntry, (PushBody.single e).entries.length = 1) := by
  have h := push_valid_count 0 SysState.init
    (PushBody.single ⟨some [("cpm", Value.vInt 30)], TsField.absent⟩)
    (by decide)
  simpa [SysState.init] using h

/-- C6: schema creation fails 400 when the fields list is empty or any
field type is unrecognized (leaving the state untouched), fails 409 when a
schema already exists (leaving the state untouched), and otherwise returns
201, stores the definition, initializes empty AggregateBuckets for every
granularity, returns the stored definition, and leaves the event log
unchanged. -/
theorem create_schema_cases (s : SysState) (fs : List (String × String))
    (aggs : List Gran) :
    ((fs.isEmpty || fs.any fun f => (parseFieldType f.2).isNone) = true →
        createSchema s fs aggs = (400, none, s))
    ∧ ((fs.isEmpty || fs.any fun f => (parseFieldType f.2).isNone) = false →
        ∀ sd, s.schema = some sd → createSchema s fs aggs = (409, none, s))
    ∧ ((fs.isEmpty || fs.any fun f => (parseFieldType f.2).isNone) = false →
        s.schema = none →
        (createSchema s fs aggs).1 = 201
        ∧ (createSchema s fs aggs).2.2.schema
            = some ⟨fs.filterMap fun f => (parseFieldType f.2).map (f.1, ·),
                aggs⟩
        ∧ (createSchema s fs aggs).2.1 = (createSchema s fs aggs).2.2.schema
        ∧ (∀ g p, (createSchema s fs aggs).2.2.buckets g p = none)
        ∧ (createSchema s fs aggs).2.2.events = s.events) := by
  refine ⟨fun hbad => ?_, fun hok sd hs => ?_, fun hok hs => ?_⟩
  · simp [createSchema, hbad]
  · simp [createSchema, hok, hs]
  · simp [createSchema, hok, hs, BucketMap.empty]

/-- C6 witness: a valid one-field schema created on the empty state yields
201, stores the definition with empty buckets; exercised at
`fields=[("cpm","integer")]`, `aggregations=[hourly]`. -/
theorem create_schema_cases_witness :
    ((([("cpm", "integer")] : List (String × String)).isEmpty
        || ([("cpm", "integer")] : List (String × String)).any
            fun f => (parseFieldType f.2).isNone) = false)
    ∧ ((createSchema SysState.init [("cpm", "integer")] [Gran.hourly]).1 = 201
        ∧ (createSchema SysState.init [("cpm", "integer")]
            [Gran.hourly]).2.2.schema
          = some ⟨([("cpm", "integer")] : List (String × String)).filterMap
              (fun f => (parseFieldType f.2).map (f.1, ·)), [Gran.hourly]⟩
        ∧ (createSchema SysState.init [("cpm", "integer")] [Gran.hourly]).2.1
          = (createSchema SysState.init [("cpm", "integer")]
              [Gran.hourly]).2.2.schema
        ∧ (∀ g p, (createSchema SysState.init [("cpm", "integer")]
            [Gran.hourly]).2.2.buckets g p = none)
        ∧ (createSchema SysState.init [("cpm", "integer")]
            [Gran.hourly]).2.2.events = SysState.init.events) :=
  ⟨by decide,
    (create_schema_cases SysState.init [("cpm", "integer")] [Gran.hourly]).2.2
      (by decide) rfl⟩

/-- C7: `DELETE /schema` returns 404 exactly when no schema exists
(leaving all state unchanged), returns 200 with a removal summary
reporting the torn-down fields and aggregations when one exists, and no
other status is possible. -/
theorem delete_schema_status (s : SysState) :
    ((deleteSchema s).1 = 404 ↔ s.schema = none)
    ∧ (s.schema = none → deleteSchema s = (404, none, s))
    ∧ (∀ sd, s.schema = some sd →
        (deleteSchema s).1 = 200
        ∧ (deleteSchema s).2.1 = some ⟨sd.fields.length, sd.aggregations⟩)
    ∧ ((deleteSchema s).1 = 404 ∨ (deleteSchema s).1 = 200) := by
  cases hs : s.schema <;> simp [deleteSchema, hs]

/-- C7 witness: on the schema-less initial state the delete reports 404
and changes nothing. -/
theorem delete_schema_status_witness :
    ((deleteSchema SysState.init).1 = 404 ↔ SysState.init.schema = none)
    ∧ deleteSchema SysState.init = (404, none, SysState.init) :=
  ⟨(delete_schema_status SysState.init).1,
    (delete_schema_status SysState.init).2.1 rfl⟩

/-- C8: out-of-bounds requests are rejected with the stated status and
without touching any state — event query with limit > 10000 or
offset < 0 → 400; aggregate query with a granularity other than
"hourly"/"daily" → 400; aggregate query with no schema, or with that
granularity's aggregation not enabled → 404. -/
theorem invalid_requests_rejected (s : SysState) (q : QueryParams)
    (granStr : String) (startD endD : Option Nat) :
    (∀ l : Int, q.limit = some l → l > 10000 →
        queryEvents s q = (400, none, s))
    ∧ (∀ o : Int, q.offset = some o → o < 0 →
        queryEvents s q = (400, none, s))
    ∧ (parseGran granStr = none →
        aggregateQuery s granStr startD endD = (400, none, s))
    ∧ (s.schema = none → ∀ g, parseGran granStr = some g →
        aggregateQuery s granStr startD endD = (404, none, s))
    ∧ (∀ sd g, s.schema = some sd → parseGran granStr = some g →
        g ∉ sd.aggregations →
        aggregateQuery s granStr startD endD = (404, none, s)) := by
  refine ⟨fun l hl hbig => ?_, fun o ho hneg => ?_, fun hg => ?_,
    fun hs g hg => ?_, fun sd g hs hg hnot => ?_⟩
  · simp [queryEvents, hl, hbig]
  · by_cases hbig : q.limit.getD 100 > 10000
    · simp [queryEvents, hbig]
    · simp [queryEvents, hbig, ho, hneg]
  · simp [aggregateQuery, hg]
  · simp [aggregateQuery, hg, hs]
  · simp [aggregateQuery, hg, hs, hnot]

/-- C8 witness: on the empty state, `limit=10001` → 400,
`offset=-1` → 400, `granularity="weekly"` → 400, and an hourly aggregate
query with no schema → 404. -/
theorem invalid_requests_rejected_witness :
    queryEvents SysState.init ⟨none, none, some 10001, none, none⟩
      = (400, none, SysState.init)
    ∧ queryEvents SysState.init ⟨none, none, none, some (-1), none⟩
      = (400, none, SysState.init)
    ∧ aggregateQuery SysState.init "weekly" none none
      = (400, none, SysState.init)
    ∧ aggregateQuery SysState.init "hourly" none none
      = (404, none, SysState.init) :=
  ⟨(invalid_requests_rejected SysState.init
      ⟨none, none, some 10001, none, none⟩ "weekly" none none).1
      10001 rfl (by decide),
    (invalid_requests_rejected SysState.init
      ⟨none, none, none, some (-1), none⟩ "weekly" none none).2.1
      (-1) rfl (by decide),
    (invalid_requests_rejected SysState.init
      ⟨none, none, none, none, none⟩ "weekly" none none).2.2.1
      (by decide),
    (invalid_requests_rejected SysState.init
      ⟨none, none, none, none, none⟩ "hourly" none none).2.2.2.1
      rfl Gran.hourly (by decide)⟩

/-- C9: the QueryEngine normalizes the shared parameters — a missing
limit becomes 100, a missing offset becomes 0, a missing order becomes
descending; order values are matched case-insensitively; and every
successful response echoes the applied limit, offset and the canonically
uppercase order. -/
theorem query_normalization (s : SysState) (q : QueryParams) :
    (∀ resp, (queryEvents s q).2.1 = some resp →
        resp.limit = q.limit.getD 100
        ∧ resp.offset = q.offset.getD 0
        ∧ resp.order = orderStr (normOrder q.order))
    ∧ normOrder none = Order.desc
    ∧ (∀ s₁ s₂ : String, s₁.toLower = s₂.toLower →
        normOrder (some s₁) = normOrder (some s₂))
    ∧ orderStr Order.asc = "ASC" ∧ orderStr Order.desc = "DESC"
    ∧ (q.limit = none → q.offset = none →
        ∃ resp, queryEvents s q = (200, some resp, s)) := by
  refine ⟨fun resp h => ?_, rfl, fun s₁ s₂ hlow => ?_, rfl, rfl,
    fun h1 h2 => ?_⟩
  · by_cases hbig : q.limit.getD 100 > 10000
    · simp [queryEvents, hbig] at h
    · by_cases hneg : q.offset.getD 0 < 0
      · simp [queryEvents, hbig, hneg] at h
      · simp [queryEvents, hbig, hneg] at h
        simp [← h]
  · simp [normOrder, hlow]
  · rcases hr : (queryEvents s q).2.1 with _ | resp
    · exfalso
      simp [queryEvents, h1, h2] at hr
    · refine ⟨resp, ?_⟩
      have h200 : (queryEvents s q).1 = 200 := by
        simp [queryEvents, h1, h2]
      have hst : (queryEvents s q).2.2 = s := by
        simp [queryEvents, h1, h2]
      calc queryEvents s q
          = ((queryEvents s q).1, (queryEvents s q).2.1,
              (queryEvents s q).2.2) := rfl
        _ = (200, some resp, s) := by rw [h200, hr, hst]

/-- C9 witness: a query with no parameters on the empty state succeeds,
and the defaults and canonical echo hold there. -/
theorem query_normalization_witness :
    normOrder none = Order.desc
    ∧ orderStr Order.asc = "ASC" ∧ orderStr Order.desc = "DESC"
    ∧ (∃ resp, queryEvents SysState.init ⟨none, none, none, none, none⟩
        = (200, some resp, SysState.init)) :=
  ⟨(query_normalization SysState.init ⟨none, none, none, none, none⟩).2.1,
    (query_normalization SysState.init ⟨none, none, none, none, none⟩).2.2.2.1,
    (query_normalization SysState.init
      ⟨none, none, none, none, none⟩).2.2.2.2.1,
    (query_normalization SysState.init
      ⟨none, none, none, none, none⟩).2.2.2.2.2 rfl rfl⟩

/-- C10: in the key-value subsystem, `exists` on a well-formed unknown
key returns 200 reporting non-existence in the body, while `get` and
`delete` on the same unknown well-formed key return 404 (and delete
changes nothing). -/
theorem kv_unknown_key_statuses (st : KVStore) (k : String)
    (hk : isUuid k = true) (hmiss : st.lookup k = none) :
    (kvExists st k).1 = 200
    ∧ (kvExists st k).2.1 = some false
    ∧ (kvGet st k).1 = 404
    ∧ (kvGet st k).2.1 = none
    ∧ (kvDelete st k).1 = 404
    ∧ (kvDelete st k).2 = st := by
  simp [kvExists, kvGet, kvDelete, hk, hmiss]

/-- C10 witness: the well-formed key
00000000-0000-4000-8000-000000000000 absent from the empty store — exists
reports 200/false, get and delete report 404. -/
theorem kv_unknown_key_statuses_witness :
    isUuid "00000000-0000-4000-8000-000000000000" = true
    ∧ (kvExists [] "00000000-0000-4000-8000-000000000000").1 = 200
    ∧ (kvExists [] "00000000-0000-4000-8000-000000000000").2.1 = some false
    ∧ (kvGet [] "00000000-0000-4000-8000-000000000000").1 = 404
    ∧ (kvDelete [] "00000000-0000-4000-8000-000000000000").1 = 404 :=
  ⟨by decide,
    (kv_unknown_key_statuses [] _ (by decide) rfl).1,
    (kv_unknown_key_statuses [] _ (by decide) rfl).2.1,
    (kv_unknown_key_statuses [] _ (by decide) rfl).2.2.1,
    (kv_unknown_key_statuses [] _ (by decide) rfl).2.2.2.2.1⟩

/-- C2 witness: for a one-record hourly log the bucket's `event_count`
equals the number of matching records, and an append onto a concrete
schema-holding state advances the maintained hourly bucket set by exactly
the shared fold. -/
theorem bucket_fold_invariant_witness :
    ((bucketFold ["cpm"]
        (bucketRecords Gran.hourly 0
          [⟨0, 10, [("cpm", Value.vInt 30)]⟩])).event_count
      = (bucketRecords Gran.hourly 0
          [⟨0, 10, [("cpm", Value.vInt 30)]⟩]).length)
    ∧ ((appendEntry 0
          ⟨[], 0, some ⟨[("cpm", FieldType.integer)], [Gran.hourly]⟩,
            fun _ => BucketMap.empty⟩
          ⟨some [("cpm", Value.vInt 30)], TsField.absent⟩).buckets Gran.hourly
        = stepRecord Gran.hourly
            (numericFields ⟨[("cpm", FieldType.integer)], [Gran.hourly]⟩)
            ((⟨[], 0, some ⟨[("cpm", FieldType.integer)], [Gran.hourly]⟩,
              fun _ => BucketMap.empty⟩ : SysState).buckets Gran.hourly)
            ⟨0, entryTs 0 ⟨some [("cpm", Value.vInt 30)], TsField.absent⟩,
              (some [("cpm", Value.vInt 30)]).getD []⟩) :=
  ⟨(bucket_fold_invariant Gran.hourly ["cpm"]
      [⟨0, 10, [("cpm", Value.vInt 30)]⟩] 0).2.1,
    (bucket_fold_invariant Gran.hourly ["cpm"]
      [⟨0, 10, [("cpm", Value.vInt 30)]⟩] 0).2.2.2 0
      ⟨[], 0, some ⟨[("cpm", FieldType.integer)], [Gran.hourly]⟩,
        fun _ => BucketMap.empty⟩
      ⟨[("cpm", FieldType.integer)], [Gran.hourly]⟩
      ⟨some [("cpm", Value.vInt 30)], TsField.absent⟩ rfl (by decide)⟩
